import Mathlib

/-!
Shallow embedding of the quiz-solver repository (src/quiz_solver.py,
src/data_processor.py) and proofs about the claims of its specification.

Conventions of the embedding:
* Python dynamic values are modelled by the inductive `PyValue`; Python
  floats are modelled by `PyFloat`, carrying the exact decimal value as a
  rational (IEEE rounding and overflow-to-infinity are not modelled; no
  theorem below inspects a float's numeric value).
* External effectful capabilities (the headless browser, the Anthropic
  API, the HTTP transport, the pandas/PyPDF2 decoders) are parameters
  (oracles) of the functions that use them; everything the repository
  itself computes is translated directly from the source.
* Character-level models (whitespace, lower-casing, digits) are ASCII;
  the repository only exercises ASCII markers and URLs.
-/

/-- Python `\s` / `str.strip` whitespace characters (ASCII part). -/
def pyWsChar (c : Char) : Bool :=
  c = ' ' || c = '\t' || c = '\n' || c = '\r' || c = '\x0b' || c = '\x0c'

/-- `hasPrefixCh l p` : the char list `l` starts with `p`. -/
def hasPrefixCh : List Char → List Char → Bool
  | _, [] => true
  | [], _ :: _ => false
  | a :: as, b :: bs => a = b && hasPrefixCh as bs

/-- `containsSub sub l` : `sub` occurs as a contiguous run inside `l`
(Python's `sub in l` on strings). -/
def containsSub (sub : List Char) : List Char → Bool
  | [] => hasPrefixCh [] sub
  | c :: rest => hasPrefixCh (c :: rest) sub || containsSub sub rest

/-- `stripPrefixCh l p = some r` iff `l = p ++ r` (case-sensitive). -/
def stripPrefixCh : List Char → List Char → Option (List Char)
  | l, [] => some l
  | [], _ :: _ => none
  | a :: as, b :: bs => if a = b then stripPrefixCh as bs else none

/-- Case-insensitive prefix strip: the pattern `p` is given pre-lowercased
and each char of `l` is lowercased before comparing (ASCII model of
`re.IGNORECASE`). -/
def stripPrefixCI : List Char → List Char → Option (List Char)
  | l, [] => some l
  | [], _ :: _ => none
  | a :: as, b :: bs => if a.toLower = b then stripPrefixCI as bs else none

/-- Python `str.strip()` (ASCII whitespace model). -/
def pyStrip (l : List Char) : List Char :=
  ((l.dropWhile pyWsChar).reverse.dropWhile pyWsChar).reverse

/-- Python `str.split('\n')`. -/
def splitOnNl : List Char → List (List Char)
  | [] => [[]]
  | c :: rest =>
    if c = '\n' then [] :: splitOnNl rest
    else
      match splitOnNl rest with
      | [] => [[c]]
      | g :: gs => (c :: g) :: gs

/-- Value of a Python `float`: exact rational for finite values, plus
infinities and NaN. -/
inductive PyFloat where
  | finite (q : ℚ)
  | inf (neg : Bool)
  | nan
deriving DecidableEq

/-- A Python dynamic value, as produced by `json.loads`, `int`, `float`,
string handling and dict/list literals in the repository. -/
inductive PyValue where
  | pyNone
  | bool (b : Bool)
  | int (n : ℤ)
  | float (x : PyFloat)
  | str (s : String)
  | list (xs : List PyValue)
  | dict (kvs : List (String × PyValue))

/-- Python truthiness (`bool(x)`), used by `if`/`while` conditions. -/
def truthy : PyValue → Bool
  | .pyNone => false
  | .bool b => b
  | .int n => n != 0
  | .float (.finite q) => q != 0
  | .float (.inf _) => true
  | .float .nan => true
  | .str s => s != ""
  | .list xs => !xs.isEmpty
  | .dict kvs => !kvs.isEmpty

/-- `dict.get(key)` on an association list whose keys are unique by
construction (see `insertKV`). -/
def dictGet : List (String × PyValue) → String → Option PyValue
  | [], _ => none
  | (k, v) :: rest, key => if k = key then some v else dictGet rest key

/-- Python `d[k] = v`: overwrite in place when the key exists (keeping its
original position), otherwise append. -/
def insertKV {β : Type} : List (String × β) → String → β → List (String × β)
  | [], k, v => [(k, v)]
  | (k', v') :: rest, k, v =>
    if k' = k then (k', v) :: rest else (k', v') :: insertKV rest k v

/-! ### Model of Python `json.loads` (strict mode, as the stdlib default:
whitespace is space/tab/newline/CR, `NaN`/`Infinity`/`-Infinity` accepted,
no trailing data, control characters inside strings rejected, duplicate
object keys resolved last-wins).  Lone `\uXXXX` surrogates, which Python
keeps as surrogate code points, are mapped to NUL by `Char.ofNat`; no
theorem below depends on them. -/

/-- JSON whitespace skip (`json.decoder.WHITESPACE`). -/
def jWs (l : List Char) : List Char :=
  l.dropWhile (fun c => c = ' ' || c = '\t' || c = '\n' || c = '\r')

def hexVal (c : Char) : Option Nat :=
  let n := c.toNat
  if 48 ≤ n ∧ n ≤ 57 then some (n - 48)        -- '0'..'9'
  else if 97 ≤ n ∧ n ≤ 102 then some (n - 87)  -- 'a'..'f'
  else if 65 ≤ n ∧ n ≤ 70 then some (n - 55)   -- 'A'..'F'
  else none

/-- Single-character JSON string escapes. -/
def escChar (e : Char) : Option Char :=
  if e = '"' then some '"'
  else if e = '\\' then some '\\'
  else if e = '/' then some '/'
  else if e = 'b' then some '\x08'
  else if e = 'f' then some '\x0c'
  else if e = 'n' then some '\n'
  else if e = 'r' then some '\r'
  else if e = 't' then some '\t'
  else none

/-- Parse the body of a JSON string (after the opening quote), returning
the decoded characters and the input after the closing quote.  Fuel-indexed;
callers pass `length + 1`, ample since every step consumes at least one
input character. -/
def jStrChars : Nat → List Char → Option (List Char × List Char)
  | 0, _ => none
  | _ + 1, [] => none
  | _ + 1, '"' :: r => some ([], r)
  | f + 1, '\\' :: 'u' :: h1 :: h2 :: h3 :: h4 :: r =>
    (match hexVal h1, hexVal h2, hexVal h3, hexVal h4 with
    | some a, some b, some c, some d =>
      let n := ((a * 16 + b) * 16 + c) * 16 + d
      if 0xD800 ≤ n ∧ n < 0xDC00 then
        -- high surrogate: try to pair with a following low surrogate
        match r with
        | '\\' :: 'u' :: g1 :: g2 :: g3 :: g4 :: r2 =>
          (match hexVal g1, hexVal g2, hexVal g3, hexVal g4 with
          | some a2, some b2, some c2, some d2 =>
            let m := ((a2 * 16 + b2) * 16 + c2) * 16 + d2
            if 0xDC00 ≤ m ∧ m < 0xE000 then
              (jStrChars f r2).map (fun p =>
                (Char.ofNat (0x10000 + (n - 0xD800) * 0x400 + (m - 0xDC00)) :: p.1, p.2))
            else
              (jStrChars f r).map (fun p => (Char.ofNat n :: p.1, p.2))
          | _, _, _, _ => (jStrChars f r).map (fun p => (Char.ofNat n :: p.1, p.2)))
        | _ => (jStrChars f r).map (fun p => (Char.ofNat n :: p.1, p.2))
      else
        (jStrChars f r).map (fun p => (Char.ofNat n :: p.1, p.2))
    | _, _, _, _ => none)
  | f + 1, '\\' :: e :: r =>
    (match escChar e with
    | some c => (jStrChars f r).map (fun p => (c :: p.1, p.2))
    | none => none)
  | f + 1, c :: r =>
    if c.toNat < 0x20 then none
    else (jStrChars f r).map (fun p => (c :: p.1, p.2))

def natOfDigits (l : List Char) : ℕ :=
  l.foldl (fun acc c => 10 * acc + (c.toNat - 48)) 0

/-- Parse a JSON number (`-?(0|[1-9]\d*)(\.\d+)?([eE][-+]?\d+)?`); integers
without fraction/exponent become Python ints, otherwise floats. -/
def jNum (l : List Char) : Option (PyValue × List Char) :=
  let p := match l with
    | '-' :: r => (true, r)
    | _ => (false, l)
  let neg := p.1
  match p.2 with
  | c :: r =>
    if c = '0' ∨ (c.isDigit ∧ c ≠ '0') then
      let ipRest : List Char × List Char :=
        if c = '0' then (['0'], r)
        else (c :: r.takeWhile Char.isDigit, r.dropWhile Char.isDigit)
      let ip := ipRest.1
      let frRest : Option (List Char) × List Char :=
        match ipRest.2 with
        | '.' :: rr =>
          let fd := rr.takeWhile Char.isDigit
          if fd.isEmpty then (none, ipRest.2)
          else (some fd, rr.dropWhile Char.isDigit)
        | _ => (none, ipRest.2)
      let exRest : Option (Bool × List Char) × List Char :=
        match frRest.2 with
        | e :: rr =>
          if e = 'e' ∨ e = 'E' then
            let q := match rr with
              | '+' :: rr2 => (false, rr2)
              | '-' :: rr2 => (true, rr2)
              | _ => (false, rr)
            let ed := q.2.takeWhile Char.isDigit
            if ed.isEmpty then (none, frRest.2)
            else (some (q.1, ed), q.2.dropWhile Char.isDigit)
          else (none, frRest.2)
        | _ => (none, frRest.2)
      match frRest.1, exRest.1 with
      | none, none =>
        some (.int (if neg then -(natOfDigits ip : ℤ) else (natOfDigits ip : ℤ)), frRest.2)
      | fr?, ex? =>
        let fd := fr?.getD []
        let exv : ℤ := match ex? with
          | some (esgn, ed) => if esgn then -(natOfDigits ed : ℤ) else (natOfDigits ed : ℤ)
          | none => 0
        let mag : ℚ := ((natOfDigits ip : ℚ) + (natOfDigits fd : ℚ) / 10 ^ fd.length) * 10 ^ exv
        some (.float (.finite (if neg then -mag else mag)), exRest.2)
    else none
  | [] => none

mutual

/-- One JSON value (CPython `json.scanner._scan_once`), fuel-indexed. -/
def jVal : Nat → List Char → Option (PyValue × List Char)
  | 0, _ => none
  | f + 1, l =>
    match l with
    | '"' :: r => (jStrChars (r.length + 1) r).map (fun p => (.str (String.mk p.1), p.2))
    | '{' :: r =>
      (match jWs r with
      | '}' :: r2 => some (.dict [], r2)
      | r1 => jMembers f r1 [])
    | '[' :: r =>
      (match jWs r with
      | ']' :: r2 => some (.list [], r2)
      | r1 => jItems f r1 [])
    | 'n' :: 'u' :: 'l' :: 'l' :: r => some (.pyNone, r)
    | 't' :: 'r' :: 'u' :: 'e' :: r => some (.bool true, r)
    | 'f' :: 'a' :: 'l' :: 's' :: 'e' :: r => some (.bool false, r)
    | 'N' :: 'a' :: 'N' :: r => some (.float .nan, r)
    | 'I' :: 'n' :: 'f' :: 'i' :: 'n' :: 'i' :: 't' :: 'y' :: r => some (.float (.inf false), r)
    | '-' :: 'I' :: 'n' :: 'f' :: 'i' :: 'n' :: 'i' :: 't' :: 'y' :: r =>
      some (.float (.inf true), r)
    | _ => jNum l

/-- Members of a JSON object after `{` (first key expected at the head). -/
def jMembers : Nat → List Char → List (String × PyValue) →
    Option (PyValue × List Char)
  | 0, _, _ => none
  | f + 1, l, acc =>
    match l with
    | '"' :: r =>
      (match jStrChars (r.length + 1) r with
      | none => none
      | some (k, r1) =>
        match jWs r1 with
        | ':' :: r2 =>
          (match jVal f (jWs r2) with
          | none => none
          | some (v, r3) =>
            let acc' := insertKV acc (String.mk k) v
            match jWs r3 with
            | ',' :: r4 => jMembers f (jWs r4) acc'
            | '}' :: r4 => some (.dict acc', r4)
            | _ => none)
        | _ => none)
    | _ => none

/-- Items of a JSON array after `[` (first item expected at the head). -/
def jItems : Nat → List Char → List PyValue → Option (PyValue × List Char)
  | 0, _, _ => none
  | f + 1, l, acc =>
    match jVal f l with
    | none => none
    | some (v, r1) =>
      match jWs r1 with
      | ',' :: r2 => jItems f (jWs r2) (acc ++ [v])
      | ']' :: r2 => some (.list (acc ++ [v]), r2)
      | _ => none

end

/-- Python `json.loads`: one value, optional surrounding whitespace,
nothing else ("Extra data" otherwise); `none` models a raised
`JSONDecodeError`. -/
def pyJsonLoads (s : String) : Option PyValue :=
  let l := jWs s.data
  match jVal (2 * l.length + 2) l with
  | some (v, rest) => if jWs rest = [] then some v else none
  | none => none

/-! ### Models of Python `int(str)` and `float(str)` (ASCII digits;
PEP 515 underscores between digits supported; overflow of `float` to
IEEE infinity not modelled). -/

def intDigitsRest : List Char → Bool
  | [] => true
  | '_' :: r =>
    (match r with
    | d :: r' => d.isDigit && intDigitsRest r'
    | [] => false)
  | d :: r => d.isDigit && intDigitsRest r

def intDigitsOk : List Char → Bool
  | [] => false
  | c :: r => c.isDigit && intDigitsRest r

/-- Python `int(s)`; `none` models a raised `ValueError`. -/
def pyIntParse (s : String) : Option ℤ :=
  let l := pyStrip s.data
  let p := match l with
    | '+' :: r => (false, r)
    | '-' :: r => (true, r)
    | _ => (false, l)
  if intDigitsOk p.2 then
    let n := natOfDigits (p.2.filter (fun c => c ≠ '_'))
    some (if p.1 then -(n : ℤ) else (n : ℤ))
  else none

/-- Greedy digit run continuation: digits, with single underscores allowed
between digits. -/
def takeDigitRunAux : List Char → (List Char × List Char)
  | '_' :: d :: r =>
    if d.isDigit then
      let p := takeDigitRunAux r
      (d :: p.1, p.2)
    else ([], '_' :: d :: r)
  | d :: r =>
    if d.isDigit then
      let p := takeDigitRunAux r
      (d :: p.1, p.2)
    else ([], d :: r)
  | [] => ([], [])

/-- Greedy digit run (must start with a digit), underscores removed from
the returned digits. -/
def takeDigitRun : List Char → (List Char × List Char)
  | c :: r =>
    if c.isDigit then
      let p := takeDigitRunAux r
      (c :: p.1, p.2)
    else ([], c :: r)
  | [] => ([], [])

/-- Python `float(s)`; `none` models a raised `ValueError`. -/
def pyFloatParse (s : String) : Option PyFloat :=
  let l := pyStrip s.data
  let p := match l with
    | '+' :: r => (false, r)
    | '-' :: r => (true, r)
    | _ => (false, l)
  let neg := p.1
  let low := p.2.map Char.toLower
  if low = "inf".data ∨ low = "infinity".data then some (.inf neg)
  else if low = "nan".data then some .nan
  else
    let ipr := takeDigitRun p.2
    let hadDotFr : Bool × List Char × List Char :=
      match ipr.2 with
      | '.' :: rr =>
        let fpr := takeDigitRun rr
        (true, fpr.1, fpr.2)
      | _ => (false, [], ipr.2)
    let mantissaOk := !ipr.1.isEmpty || (hadDotFr.1 && !hadDotFr.2.1.isEmpty)
    let mant : ℚ := (natOfDigits ipr.1 : ℚ) +
      (natOfDigits hadDotFr.2.1 : ℚ) / 10 ^ hadDotFr.2.1.length
    match hadDotFr.2.2 with
    | [] =>
      if mantissaOk then some (.finite (if neg then -mant else mant)) else none
    | e :: r3 =>
      if e = 'e' ∨ e = 'E' then
        let q := match r3 with
          | '+' :: rr => (false, rr)
          | '-' :: rr => (true, rr)
          | _ => (false, r3)
        let edr := takeDigitRun q.2
        if mantissaOk ∧ ¬edr.1.isEmpty ∧ edr.2.isEmpty then
          let ex : ℤ := if q.1 then -(natOfDigits edr.1 : ℤ) else (natOfDigits edr.1 : ℤ)
          let v := mant * 10 ^ ex
          some (.finite (if neg then -v else v))
        else none
      else none

example : pyJsonLoads "42" = some (.int 42) := rfl
example : pyJsonLoads "true" = some (.bool true) := rfl
example : pyJsonLoads "hello world" = none := rfl

theorem stripPrefixCh_eq_some {l p r : List Char} :
    stripPrefixCh l p = some r ↔ l = p ++ r := by
  induction p generalizing l with
  | nil =>
    simp only [stripPrefixCh, List.nil_append, Option.some.injEq]
  | cons b bs ih =>
    cases l with
    | nil => simp [stripPrefixCh]
    | cons a as =>
      by_cases hab : a = b
      · subst hab
        simp [stripPrefixCh, ih]
      · simp [stripPrefixCh, hab]

/-! ### `QuizSolver.extract_submit_url` (src/quiz_solver.py:123-130)

`re.search(r'Post your answer to (https?://[^\s\)]+)', text)` — note:
case-SENSITIVE (no `re.IGNORECASE` flag), and the captured URL is the
maximal run of non-whitespace, non-`)` characters (so trailing `.`/`,`
punctuation is kept). -/

/-- Characters allowed inside the captured URL: `[^\s\)]`. -/
def urlChar (c : Char) : Bool := !pyWsChar c && c ≠ ')'

def submitLiteral : List Char := "Post your answer to ".data

/-- Greedy `https?://` alternative: `https` is tried before `http`
(`s?` is greedy); the two cannot both match the same input. -/
def schemeSplit (l : List Char) : Option (List Char × List Char) :=
  match stripPrefixCh l "https://".data with
  | some r => some ("https://".data, r)
  | none =>
    match stripPrefixCh l "http://".data with
    | some r => some ("http://".data, r)
    | none => none

/-- Try the whole pattern anchored at the head of `l`; returns the
captured group. -/
def submitMatchAt (l : List Char) : Option (List Char) :=
  match stripPrefixCh l submitLiteral with
  | none => none
  | some l1 =>
    match schemeSplit l1 with
    | none => none
    | some (sch, rest) =>
      let body := rest.takeWhile urlChar
      if body.isEmpty then none else some (sch ++ body)

/-- `re.search` scan: leftmost position whose anchored match succeeds. -/
def submitScan : List Char → Option (List Char)
  | [] => none
  | c :: rest =>
    match submitMatchAt (c :: rest) with
    | some u => some u
    | none => submitScan rest

/-- `QuizSolver.extract_submit_url`. -/
def extract_submit_url (text : String) : Option String :=
  (submitScan text.data).map String.mk

example : extract_submit_url "Post your answer to https://x.y/z" = some "https://x.y/z" := rfl
example : extract_submit_url "say (Post your answer to https://x.y/z) ok" =
    some "https://x.y/z" := rfl
example : extract_submit_url "post your answer to https://x.y/z" = none := rfl

/-! ### `QuizSolver.extract_final_answer` (src/quiz_solver.py:190-222)

`re.search(r'FINAL_ANSWER:\s*(.+?)(?:\n|$)', response, re.IGNORECASE |
re.DOTALL)`, then fallback to the last non-blank line, then JSON / number
/ boolean / string classification. -/

def finalMarker : List Char := "final_answer:".data

/-- First case-insensitive occurrence of `FINAL_ANSWER:`; returns the
input after the marker. -/
def findMarker : List Char → Option (List Char)
  | [] => none
  | c :: rest =>
    match stripPrefixCI (c :: rest) finalMarker with
    | some r => some r
    | none => findMarker rest

/-- The regex capture after the marker, for nonempty remainder `r`:
`\s*` greedily eats whitespace, the lazy `(.+?)` then stops right before
the first newline (or takes everything if none); when only whitespace
remains, backtracking hands the last whitespace character to `(.+?)`. -/
def captureFrom (r : List Char) : List Char :=
  let w := r.takeWhile pyWsChar
  let rest := r.dropWhile pyWsChar
  match rest with
  | [] =>
    (match w.getLast? with
    | some c => [c]
    | none => [])
  | _ => rest.takeWhile (fun c => c ≠ '\n')

/-- Fallback when the regex finds no match: last non-blank stripped line
of the stripped response, or the stripped response itself. -/
def lastLineFallback (response : String) : List Char :=
  let stripped := pyStrip response.data
  let lines := ((splitOnNl stripped).map pyStrip).filter (fun l => !l.isEmpty)
  match lines.getLast? with
  | some l => l
  | none => stripped

/-- The `answer` string handed to the classification stages: regex capture
(stripped) when the marker matches, else the last-line fallback.  A marker
with nothing at all after it fails the regex (the lazy `(.+?)` needs one
character and there is nothing to backtrack), and no later occurrence can
exist, so the fallback applies. -/
def capturedAnswer (response : String) : String :=
  match findMarker response.data with
  | some r =>
    if r.isEmpty then String.mk (lastLineFallback response)
    else String.mk (pyStrip (captureFrom r))
  | none => String.mk (lastLineFallback response)

/-- The numeric stage: `if '.' in answer: return float(answer); return
int(answer)`, inside one `try` whose failure falls through. -/
def pyNumParse (answer : String) : Option PyValue :=
  if answer.data.contains '.' then (pyFloatParse answer).map PyValue.float
  else (pyIntParse answer).map PyValue.int

/-- `QuizSolver.extract_final_answer`. -/
def extract_final_answer (response : String) : PyValue :=
  let answer := capturedAnswer response
  match pyJsonLoads answer with
  | some v => v
  | none =>
    match pyNumParse answer with
    | some v => v
    | none =>
      -- `answer.lower() in ['true', 'false']`, then `answer.lower() == 'true'`
      let lowerAns := answer.data.map Char.toLower
      if lowerAns = "true".data then .bool true
      else if lowerAns = "false".data then .bool false
      else .str answer

example : extract_final_answer "FINAL_ANSWER: 42" = .int 42 := rfl
example : extract_final_answer "thinking...\nFINAL_ANSWER: hello world" =
    .str "hello world" := rfl
example : extract_final_answer "" = .str "" := rfl
example : extract_final_answer "a\nb\n\n" = .str "b" := rfl

/-! ### `DataProcessor` (src/data_processor.py)

The per-type decoders (`process_pdf`, `process_csv`, …) wrap external
libraries (PyPDF2, pandas) and are therefore oracle parameters; each may
"raise" (`Except.error`), which `process_files`' per-resource
`try/except` turns into an `{"error": str(e)}` summary (lines 35-37).
Raw file bytes are an abstract type `β`. -/

inductive FType where
  | pdf | csv | xlsx | json | txt | unknown
deriving DecidableEq

/-- `DataProcessor.detect_file_type` (lines 41-56): substring containment
tests on the lowercased URL, in priority order. -/
def detect_file_type (url : String) : FType :=
  let u := url.data.map Char.toLower
  if containsSub ".pdf".data u then .pdf
  else if containsSub ".csv".data u then .csv
  else if containsSub ".xlsx".data u || containsSub ".xls".data u then .xlsx
  else if containsSub ".json".data u then .json
  else if containsSub ".txt".data u then .txt
  else .unknown

/-- The five external per-type decoders of `DataProcessor`. -/
structure FProcs (β : Type) where
  pdf : β → Except String PyValue
  csv : β → Except String PyValue
  xlsx : β → Except String PyValue
  json : β → Except String PyValue
  txt : β → Except String PyValue

/-- The body of one iteration of `DataProcessor.process_files` (lines
19-37): type dispatch, unknown type summary, and the per-resource
`except` that maps a raised error to an `{"error": ...}` summary. -/
def processOne {β : Type} (procs : FProcs β) (url : String) (content : β) : PyValue :=
  let step : Except String PyValue :=
    match detect_file_type url with
    | .pdf => procs.pdf content
    | .csv => procs.csv content
    | .xlsx => procs.xlsx content
    | .json => procs.json content
    | .txt => procs.txt content
    | .unknown => .ok (.dict [("error", .str "Unknown file type")])
  match step with
  | .ok v => v
  | .error e => .dict [("error", .str e)]

/-- `DataProcessor.process_files` (lines 14-39): loop over the
`file_contents` dict, building the `results` dict. -/
def process_files {β : Type} (procs : FProcs β) (files : List (String × β)) :
    List (String × PyValue) :=
  files.foldl (fun acc uc => insertKV acc uc.1 (processOne procs uc.1 uc.2)) []

/-! ### The attachment-download loop of `QuizSolver.solve_question`
(src/quiz_solver.py:160-168): links whose href contains one of the five
extension substrings are downloaded; a download failure is logged and the
link skipped (no entry in `file_contents`). -/

/-- An anchor as returned by the in-page script: `{href, text}`. -/
structure Link where
  href : String
  label : String

/-- `any(ext in link['href'].lower() for ext in [...])` — note `.xls`
alone is NOT in this list (unlike `detect_file_type`). -/
def wantsDownload (href : String) : Bool :=
  [".pdf", ".csv", ".xlsx", ".json", ".txt"].any
    (fun ext => containsSub ext.data (href.data.map Char.toLower))

/-- The `file_contents` dict built by the download loop; `dl` is the
external `download_file` capability (`Except.error` = raised exception). -/
def collectFiles {β : Type} (dl : String → Except String β) (links : List Link) :
    List (String × β) :=
  links.foldl
    (fun acc link =>
      if wantsDownload link.href then
        match dl link.href with
        | .ok content => insertKV acc link.href content
        | .error _ => acc
      else acc)
    []

example : detect_file_type "http://x/report.pdf.csv" = .pdf := rfl
example : detect_file_type "http://x/a.bin" = .unknown := rfl
example : wantsDownload "http://x/a.bin" = false := rfl

/-! ### `QuizSolver.solve_quiz_chain` and friends (src/quiz_solver.py)

External capabilities become oracles:
* `render : PyValue → Except String Page` — the Playwright side of
  `extract_question` (navigate, settle, read text/markup/anchors); an
  `Except.error` is any exception raised while rendering.  It takes the
  raw `current_url` value because the loop assigns `response["url"]`
  to `current_url` unchecked.
* `answerOf : QData → Except String PyValue` — `solve_question`
  (context building plus the Anthropic call plus `extract_final_answer`);
  an `Except.error` is an exception raised by the API call.
* `http : String → PyValue → HttpOutcome` — the `httpx` POST of
  `submit_answer`, given the submit URL and the JSON payload. -/

/-- What the rendered page yields inside `extract_question`. -/
structure Page where
  text : String
  html : String
  links : List Link

/-- The dict returned by `extract_question` (lines 113-118). -/
structure QData where
  question : String
  html : String
  links : List Link
  submit_url : Option String

/-- `QuizSolver.extract_question` (lines 88-121): render, then package,
computing `submit_url` with `extract_submit_url` over the page text. -/
def extract_question (render : PyValue → Except String Page) (url : PyValue) :
    Except String QData :=
  match render url with
  | .error e => .error e
  | .ok pg => .ok ⟨pg.text, pg.html, pg.links, extract_submit_url pg.text⟩

/-- Outcome of the `httpx` POST inside `submit_answer`: transport-level
exception, or a status code plus the result of `response.json()`
(`Except.error` there = body that fails to decode as JSON). -/
inductive HttpOutcome where
  | fail (msg : String)
  | resp (status : Nat) (body : Except String PyValue)

/-- `QuizSolver.submit_answer` (lines 230-251): build the payload dict,
POST it, `raise_for_status` (httpx raises outside 2xx), decode JSON. -/
def submit_answer (http : String → PyValue → HttpOutcome)
    (email secret : String) (submit_url : String) (quiz_url : PyValue)
    (answer : PyValue) : Except String PyValue :=
  let payload : PyValue := .dict
    [("email", .str email), ("secret", .str secret),
     ("url", quiz_url), ("answer", answer)]
  match http submit_url payload with
  | .fail m => .error m
  | .resp status body =>
    if 200 ≤ status ∧ status < 300 then body
    else .error ("HTTPStatusError: " ++ toString status)

/-- One trace entry (lines 57-63 on success, 77-80 on failure). -/
inductive StepRecord where
  | ok (url : PyValue) (question : String) (answer : PyValue)
      (correct : PyValue) (reason : PyValue)
  | err (url : PyValue) (error : String)

/-- The dict returned by `solve_quiz_chain` (line 86). -/
structure ChainResult where
  total_solved : Nat
  results : List StepRecord

/-- `question_data['question'][:200]`. -/
def take200 (s : String) : String := String.mk (s.data.take 200)

/-- The success record appended at lines 57-63: `correct` is
`response.get("correct", False)` and `reason` is `response.get("reason")`
(default `None`). -/
def mkStepRecord (current : PyValue) (qd : QData) (answer : PyValue)
    (kvs : List (String × PyValue)) : StepRecord :=
  .ok current (take200 qd.question) answer
    ((dictGet kvs "correct").getD (.bool false))
    ((dictGet kvs "reason").getD .pyNone)

/-- The continuation decision of lines 65-73: `if response.get("correct")
and response.get("url"): current_url = response["url"]; elif not
response.get("correct") and response.get("url"): current_url =
response["url"]; else: break`.  `some v` = assign `current_url := v` and
loop, `none` = break.  (`response["url"]` equals
`response.get("url")`'s value whenever the guard holds, since the guard
requires the field truthy, hence present.) -/
def nextUrlDecision (kvs : List (String × PyValue)) : Option PyValue :=
  let correctV := (dictGet kvs "correct").getD .pyNone
  let urlV := (dictGet kvs "url").getD .pyNone
  if truthy correctV = true ∧ truthy urlV = true then
    some ((dictGet kvs "url").getD .pyNone)
  else if truthy correctV = false ∧ truthy urlV = true then
    some ((dictGet kvs "url").getD .pyNone)
  else none

/-- The `while current_url and iteration < max_iterations` loop of
`solve_quiz_chain` (lines 24-81).  `fuel` only bounds the recursion depth
for Lean; with the initial call `fuel = 20`, the guard `iteration < 20`
is always the binding bound, and a fuel of `20 - iteration` remains
available at every reachable call.  Every `break` and every `except`
branch returns the accumulated `results`. -/
def solveLoop (render : PyValue → Except String Page)
    (answerOf : QData → Except String PyValue)
    (http : String → PyValue → HttpOutcome) (email secret : String) :
    Nat → Nat → PyValue → List StepRecord → List StepRecord
  | 0, _, _, results => results
  | fuel + 1, iteration, current, results =>
    if truthy current = true ∧ iteration < 20 then
      match extract_question render current with
      | .error e => results ++ [.err current e]
      | .ok qd =>
        match answerOf qd with
        | .error e => results ++ [.err current e]
        | .ok answer =>
          match qd.submit_url with
          | none => results          -- `if not submit_url: break` (no record)
          | some su =>
            if su = "" then results  -- same falsy check on an empty string
            else
              match submit_answer http email secret su current answer with
              | .error e => results ++ [.err current e]
              | .ok resp =>
                match resp with
                | .dict kvs =>
                  (match nextUrlDecision kvs with
                  | some nxt =>
                    solveLoop render answerOf http email secret
                      fuel (iteration + 1) nxt
                      (results ++ [mkStepRecord current qd answer kvs])
                  | none => results ++ [mkStepRecord current qd answer kvs])
                | _ =>
                  -- `response.get` on a non-dict raises AttributeError,
                  -- caught by the `except` at line 75
                  results ++ [.err current "AttributeError: get"]
    else results

/-- `QuizSolver.solve_quiz_chain` (lines 22-86). -/
def solve_quiz_chain (render : PyValue → Except String Page)
    (answerOf : QData → Except String PyValue)
    (http : String → PyValue → HttpOutcome) (email secret : String)
    (start_url : String) : ChainResult :=
  let results := solveLoop render answerOf http email secret 20 0 (.str start_url) []
  { total_solved := results.length, results := results }

/-! ## Theorems about the claims -/

/-- Each loop pass appends at most one record and increments `iteration`,
so at most `20 - iteration` records are ever added. -/
theorem solveLoop_length_le (render : PyValue → Except String Page)
    (answerOf : QData → Except String PyValue)
    (http : String → PyValue → HttpOutcome) (email secret : String) :
    ∀ fuel iteration current results,
      (solveLoop render answerOf http email secret fuel iteration current results).length
        ≤ results.length + (20 - iteration) := by
  intro fuel
  induction fuel with
  | zero =>
    intro iteration current results
    simp [solveLoop]
  | succ f ih =>
    intro iteration current results
    simp only [solveLoop]
    split
    · rename_i hcond
      have hiter : iteration < 20 := hcond.2
      split
      · simp only [List.length_append, List.length_cons, List.length_nil]; omega
      · split
        · simp only [List.length_append, List.length_cons, List.length_nil]; omega
        · split
          · omega
          · split
            · omega
            · split
              · simp only [List.length_append, List.length_cons, List.length_nil]; omega
              · split
                · split
                  · refine le_trans (ih _ _ _) ?_
                    simp only [List.length_append, List.length_cons, List.length_nil]
                    omega
                  · simp only [List.length_append, List.length_cons, List.length_nil]; omega
                · simp only [List.length_append, List.length_cons, List.length_nil]; omega
    · omega

/-- C2: For every chain run, regardless of how many responses from the
submission endpoint supply a next url, the Chain Driver performs at most
20 iterations: the trace never exceeds 20 entries, and once the iteration
counter (which grows by exactly one per pass) reaches 20 the loop adds
nothing more. -/
theorem chain_results_length_le_twenty :
    ∀ (render : PyValue → Except String Page)
      (answerOf : QData → Except String PyValue)
      (http : String → PyValue → HttpOutcome) (email secret start_url : String),
      (solve_quiz_chain render answerOf http email secret start_url).results.length ≤ 20
      ∧ (∀ fuel iteration current results, 20 ≤ iteration →
          solveLoop render answerOf http email secret fuel iteration current results
            = results) := by
  intro render answerOf http email secret start_url
  constructor
  · have h := solveLoop_length_le render answerOf http email secret 20 0 (.str start_url) []
    simpa [solve_quiz_chain] using h
  · intro fuel iteration current results h
    cases fuel with
    | zero => rfl
    | succ f =>
      simp only [solveLoop]
      rw [if_neg]
      rintro ⟨-, h2⟩
      omega

/-- Witness for `chain_results_length_le_twenty` at concrete inputs. -/
theorem chain_results_length_le_twenty_witness :
    (solve_quiz_chain (fun _ => .error "w1") (fun _ => .error "w1")
        (fun _ _ => .fail "w1") "w@1" "w1" "http://w1").results.length ≤ 20
    ∧ solveLoop (fun _ => .error "w1") (fun _ => .error "w1")
        (fun _ _ => .fail "w1") "w@1" "w1" 5 20 (.str "http://w1") [] = [] :=
  ⟨(chain_results_length_le_twenty _ _ _ _ _ _).1,
   (chain_results_length_le_twenty (fun _ => .error "w1") (fun _ => .error "w1")
      (fun _ _ => .fail "w1") "w@1" "w1" "http://w1").2 5 20 (.str "http://w1") []
      (by decide)⟩

/-- C1 (counterexample): a chain whose first page extraction raises
returns `total_solved = 1`, not `0` — the error record is counted. -/
theorem chain_first_extraction_failure_counterexample :
    solve_quiz_chain (fun _ => .error "Renderer crashed") (fun _ => .error "unused")
        (fun _ _ => .fail "unused") "e@x" "sec" "http://quiz/1" =
      ⟨1, [.err (.str "http://quiz/1") "Renderer crashed"]⟩
    ∧ (solve_quiz_chain (fun _ => .error "Renderer crashed") (fun _ => .error "unused")
        (fun _ _ => .fail "unused") "e@x" "sec" "http://quiz/1").total_solved ≠ 0 :=
  ⟨rfl, by decide⟩

/-- C1 (amended): for every chain run with a truthy start URL whose first
page extraction raises, the ChainResult holds exactly one StepRecord,
carrying the failed URL and the error message, and `total_solved` equals
1 — the length of the results list, error record included. -/
theorem chain_first_extraction_failure (render : PyValue → Except String Page)
    (answerOf : QData → Except String PyValue)
    (http : String → PyValue → HttpOutcome) (email secret start_url : String)
    (e : String) (hrender : render (.str start_url) = .error e)
    (hstart : start_url ≠ "") :
    solve_quiz_chain render answerOf http email secret start_url =
      ⟨1, [.err (.str start_url) e]⟩ := by
  simp [solve_quiz_chain, solveLoop, extract_question, hrender, truthy, hstart]

/-- Witness for `chain_first_extraction_failure`. -/
theorem chain_first_extraction_failure_witness :
    solve_quiz_chain (fun _ => .error "net down") (fun _ => .ok .pyNone)
      (fun _ _ => .fail "x") "a" "b" "http://start" =
      ⟨1, [.err (.str "http://start") "net down"]⟩ :=
  chain_first_extraction_failure _ _ _ _ _ _ _ rfl (by decide)

/-- C9: `total_solved` is the length of the results list — every appended
StepRecord is counted.  In particular (second conjunct) a step answered
incorrectly still counts: a concrete run whose submission endpoint
replies `correct: false` with no next url ends with `total_solved = 1`
and a record with `correct = False`, so `total_solved` is not the number
of correctly solved quizzes. -/
theorem total_solved_eq_results_length :
    (∀ (render : PyValue → Except String Page)
       (answerOf : QData → Except String PyValue)
       (http : String → PyValue → HttpOutcome) (email secret start_url : String),
      (solve_quiz_chain render answerOf http email secret start_url).total_solved =
        (solve_quiz_chain render answerOf http email secret start_url).results.length)
    ∧ solve_quiz_chain
        (fun _ => .ok ⟨"Q Post your answer to http://s/sub", "", []⟩)
        (fun _ => .ok (.int 4))
        (fun _ _ => .resp 200 (.ok (.dict [("correct", .bool false), ("reason", .str "wrong")])))
        "e" "s" "http://q/1" =
        ⟨1, [.ok (.str "http://q/1") "Q Post your answer to http://s/sub" (.int 4)
              (.bool false) (.str "wrong")]⟩ :=
  ⟨fun _ _ _ _ _ _ => rfl, rfl⟩

/-- The two `url`-continuation branches of lines 66-73 collapse: the
decision only looks at the truthiness of the `url` field. -/
theorem nextUrlDecision_eq (kvs : List (String × PyValue)) :
    nextUrlDecision kvs =
      if truthy ((dictGet kvs "url").getD .pyNone) = true
      then some ((dictGet kvs "url").getD .pyNone) else none := by
  simp only [nextUrlDecision]
  cases hc : truthy ((dictGet kvs "correct").getD .pyNone) <;>
    cases hu : truthy ((dictGet kvs "url").getD .pyNone) <;>
      simp [hc, hu]

/-- C7: the continuation decision is identical for any two decoded
responses agreeing on the `url` field, whatever their `correct` fields
(there is no distinct retry path); and when the `url` field is absent the
chain terminates (decision `none`). -/
theorem next_url_ignores_correct :
    (∀ kvs1 kvs2 : List (String × PyValue),
      dictGet kvs1 "url" = dictGet kvs2 "url" →
      nextUrlDecision kvs1 = nextUrlDecision kvs2)
    ∧ (∀ kvs : List (String × PyValue),
      dictGet kvs "url" = none → nextUrlDecision kvs = none) := by
  constructor
  · intro kvs1 kvs2 h
    rw [nextUrlDecision_eq, nextUrlDecision_eq, h]
  · intro kvs h
    rw [nextUrlDecision_eq, h]
    simp [truthy]

/-- Witness for `next_url_ignores_correct`. -/
theorem next_url_ignores_correct_witness :
    nextUrlDecision [("correct", .bool true), ("url", .str "http://n")] =
      nextUrlDecision [("correct", .bool false), ("url", .str "http://n")]
    ∧ nextUrlDecision [("correct", .bool true)] = none :=
  ⟨next_url_ignores_correct.1 _ _ rfl, next_url_ignores_correct.2 _ rfl⟩

/-- C8: the Submitter POSTs exactly the payload
`{email, secret, url, answer}` (an oracle echoing its payload back with
status 200 makes `submit_answer` return precisely that dict), raises on
a non-success (non-2xx) HTTP status, and downstream decoding tolerates
missing fields: a response dict without `correct` yields a record with
`correct = False`, an absent `reason` records `None`, and an absent
`url` terminates the chain rather than erroring. -/
theorem submit_answer_contract :
    (∀ (http : String → PyValue → HttpOutcome) (email secret su : String)
       (qu ans : PyValue) (status : Nat) (body : Except String PyValue),
      http su (.dict [("email", .str email), ("secret", .str secret),
        ("url", qu), ("answer", ans)]) = .resp status body →
      ¬(200 ≤ status ∧ status < 300) →
      submit_answer http email secret su qu ans =
        .error ("HTTPStatusError: " ++ toString status))
    ∧ (∀ (email secret su : String) (qu ans : PyValue),
      submit_answer (fun _ p => .resp 200 (.ok p)) email secret su qu ans =
        .ok (.dict [("email", .str email), ("secret", .str secret),
          ("url", qu), ("answer", ans)]))
    ∧ (∀ (current : PyValue) (qd : QData) (ans : PyValue),
      mkStepRecord current qd ans [] =
        .ok current (take200 qd.question) ans (.bool false) .pyNone)
    ∧ nextUrlDecision [] = none := by
  refine ⟨?_, ?_, ?_, rfl⟩
  · intro http email secret su qu ans status body h hn
    simp only [submit_answer, h]
    rw [if_neg hn]
  · intro email secret su qu ans
    rfl
  · intro current qd ans
    rfl

/-- Witness for `submit_answer_contract`: a 404 response raises. -/
theorem submit_answer_contract_witness :
    submit_answer (fun _ _ => .resp 404 (.error "no json")) "e" "s"
      "http://sub" (.str "http://q") (.int 1) =
      .error ("HTTPStatusError: " ++ toString 404) :=
  submit_answer_contract.1 (fun _ _ => .resp 404 (.error "no json"))
    "e" "s" "http://sub" (.str "http://q") (.int 1) 404 (.error "no json")
    rfl (by decide)

/-- C5: the Answer Extractor captures the text after the `FINAL_ANSWER:`
marker (or the last non-blank line when the marker is absent) and
classifies it JSON-first, then numeric, then boolean, then string:
whenever the JSON parse of the captured answer succeeds its value is
returned, whenever JSON fails and the numeric stage succeeds its value is
returned, and on the four literal inputs of the claim it yields
number 42, boolean true, the object `a ↦ 1`, and the string
"hello world" respectively. -/
theorem extract_final_answer_classification :
    (∀ (s : String) (v : PyValue),
      pyJsonLoads (capturedAnswer s) = some v → extract_final_answer s = v)
    ∧ (∀ (s : String) (v : PyValue),
      pyJsonLoads (capturedAnswer s) = none →
      pyNumParse (capturedAnswer s) = some v → extract_final_answer s = v)
    ∧ extract_final_answer "Let me think.\nFINAL_ANSWER: 42" = .int 42
    ∧ extract_final_answer "FINAL_ANSWER: true" = .bool true
    ∧ extract_final_answer "FINAL_ANSWER: \x7b\"a\":1\x7d" = .dict [("a", .int 1)]
    ∧ extract_final_answer "FINAL_ANSWER: hello world" = .str "hello world"
    ∧ extract_final_answer "The answer should be...\n7" = .int 7 := by
  refine ⟨?_, ?_, rfl, rfl, rfl, rfl, rfl⟩
  · intro s v h
    simp only [extract_final_answer, h]
  · intro s v h1 h2
    simp only [extract_final_answer, h1, h2]

/-- Witness for `extract_final_answer_classification`. -/
theorem extract_final_answer_classification_witness :
    extract_final_answer "FINAL_ANSWER: 9" = .int 9 :=
  extract_final_answer_classification.1 "FINAL_ANSWER: 9" (.int 9) rfl

/-- C10: the Answer Extractor is total — each parse stage's failure is
absorbed and falls through, and the final string stage accepts whatever
remains: when JSON and numeric parsing of the captured answer both fail
and it is not a boolean literal, the extractor returns it as a string;
the empty input (whose captured answer is the empty string) yields the
empty string. -/
theorem extract_final_answer_total_fallback :
    (∀ s : String,
      pyJsonLoads (capturedAnswer s) = none →
      pyNumParse (capturedAnswer s) = none →
      (capturedAnswer s).data.map Char.toLower ≠ "true".data →
      (capturedAnswer s).data.map Char.toLower ≠ "false".data →
      extract_final_answer s = .str (capturedAnswer s))
    ∧ extract_final_answer "" = .str "" := by
  refine ⟨?_, rfl⟩
  intro s h1 h2 h3 h4
  simp only [extract_final_answer, h1, h2]
  rw [if_neg h3, if_neg h4]

/-- Witness for `extract_final_answer_total_fallback`. -/
theorem extract_final_answer_total_fallback_witness :
    extract_final_answer "zzz" = .str (capturedAnswer "zzz") :=
  extract_final_answer_total_fallback.1 "zzz" rfl rfl (by decide) (by decide)

/-- `hasSuffixCh l p` : the char list `l` ends with `p`. -/
def hasSuffixCh (l p : List Char) : Bool := hasPrefixCh l.reverse p.reverse

/-- C6 (counterexample): the classifier is keyed on substring containment,
not on the URL's suffix.  A URL ending in `.csv` but containing `.pdf`
is classified `pdf`, and a URL ending in none of the extensions but
containing `.csv` is classified `csv` rather than `unknown`. -/
theorem detect_file_type_suffix_counterexample :
    detect_file_type "http://x/report.pdf.csv" = .pdf
    ∧ hasSuffixCh "http://x/report.pdf.csv".data ".csv".data = true
    ∧ FType.pdf ≠ FType.csv
    ∧ detect_file_type "http://x/data.csving" = .csv
    ∧ ([".pdf", ".csv", ".xlsx", ".xls", ".json", ".txt"].all
        (fun ext => !hasSuffixCh "http://x/data.csving".data ext.data)) = true
    ∧ FType.csv ≠ FType.unknown := by
  refine ⟨rfl, by decide, by decide, rfl, by decide, by decide⟩

/-- C6 (amended): the attachment type classifier assigns the type by
case-insensitive substring containment over the URL, tested in the
priority order `.pdf`, `.csv`, `.xlsx`/`.xls`, `.json`, `.txt`; a URL
containing none of these maps to `unknown`, which yields the summary
`{"error": "Unknown file type"}`. -/
theorem detect_file_type_characterization :
    ∀ url : String,
      (containsSub ".pdf".data (url.data.map Char.toLower) = true →
        detect_file_type url = .pdf)
      ∧ (containsSub ".pdf".data (url.data.map Char.toLower) = false →
        containsSub ".csv".data (url.data.map Char.toLower) = true →
        detect_file_type url = .csv)
      ∧ (containsSub ".pdf".data (url.data.map Char.toLower) = false →
        containsSub ".csv".data (url.data.map Char.toLower) = false →
        (containsSub ".xlsx".data (url.data.map Char.toLower)
          || containsSub ".xls".data (url.data.map Char.toLower)) = true →
        detect_file_type url = .xlsx)
      ∧ (containsSub ".pdf".data (url.data.map Char.toLower) = false →
        containsSub ".csv".data (url.data.map Char.toLower) = false →
        (containsSub ".xlsx".data (url.data.map Char.toLower)
          || containsSub ".xls".data (url.data.map Char.toLower)) = false →
        containsSub ".json".data (url.data.map Char.toLower) = true →
        detect_file_type url = .json)
      ∧ (containsSub ".pdf".data (url.data.map Char.toLower) = false →
        containsSub ".csv".data (url.data.map Char.toLower) = false →
        (containsSub ".xlsx".data (url.data.map Char.toLower)
          || containsSub ".xls".data (url.data.map Char.toLower)) = false →
        containsSub ".json".data (url.data.map Char.toLower) = false →
        containsSub ".txt".data (url.data.map Char.toLower) = true →
        detect_file_type url = .txt)
      ∧ (containsSub ".pdf".data (url.data.map Char.toLower) = false →
        containsSub ".csv".data (url.data.map Char.toLower) = false →
        (containsSub ".xlsx".data (url.data.map Char.toLower)
          || containsSub ".xls".data (url.data.map Char.toLower)) = false →
        containsSub ".json".data (url.data.map Char.toLower) = false →
        containsSub ".txt".data (url.data.map Char.toLower) = false →
        detect_file_type url = .unknown)
      ∧ (∀ {β : Type} (procs : FProcs β) (content : β),
        detect_file_type url = .unknown →
        processOne procs url content = .dict [("error", .str "Unknown file type")]) := by
  intro url
  refine ⟨?_, ?_, ?_, ?_, ?_, ?_, ?_⟩
  · intro h1; simp [detect_file_type, h1]
  · intro h1 h2; simp [detect_file_type, h1, h2]
  · intro h1 h2 h3; simp [detect_file_type, h1, h2, h3]
  · intro h1 h2 h3 h4; simp [detect_file_type, h1, h2, h3, h4]
  · intro h1 h2 h3 h4 h5; simp [detect_file_type, h1, h2, h3, h4, h5]
  · intro h1 h2 h3 h4 h5; simp [detect_file_type, h1, h2, h3, h4, h5]
  · intro β procs content h
    simp only [processOne, h]

/-- A concrete decoder oracle used by witnesses. -/
def procsK : FProcs String :=
  { pdf := fun _ => .ok .pyNone
    csv := fun _ => .ok (.dict [("type", .str "csv")])
    xlsx := fun _ => .ok .pyNone
    json := fun _ => .ok .pyNone
    txt := fun _ => .ok .pyNone }

/-- Witness for `detect_file_type_characterization`. -/
theorem detect_file_type_characterization_witness :
    detect_file_type "http://x/a.csv" = .csv
    ∧ processOne procsK "http://x/a.bin" "bytes" =
        .dict [("error", .str "Unknown file type")] :=
  ⟨(detect_file_type_characterization "http://x/a.csv").2.1 rfl rfl,
   (detect_file_type_characterization "http://x/a.bin").2.2.2.2.2.2 procsK "bytes" rfl⟩

/-- Concrete download oracle: only `a.csv` downloads; everything else
raises a connection error. -/
def dlX : String → Except String String := fun u =>
  if u = "http://q/a.csv" then .ok "col\nv" else .error "ConnectError: connection refused"

/-- The three linked resources of the claim's scenario: one that decodes
as CSV, one whose download fails, one with an unrecognized extension. -/
def linksX : List Link :=
  [⟨"http://q/a.csv", "A"⟩, ⟨"http://q/b.csv", "B"⟩, ⟨"http://q/c.bin", "C"⟩]

/-- C4 (counterexample): in a chain step the summary mapping for that
batch holds exactly ONE entry — the successfully downloaded and decoded
CSV.  The resource whose download failed was skipped by the download loop
(no `{error}` entry), and the unrecognized-extension resource was never
downloaded (no `{error, "Unknown file type"}` entry), so the mapping does
not have one entry per resource. -/
theorem attachment_batch_counterexample :
    process_files procsK (collectFiles dlX linksX) =
      [("http://q/a.csv", .dict [("type", .str "csv")])]
    ∧ (process_files procsK (collectFiles dlX linksX)).length ≠ 3 :=
  ⟨rfl, by decide⟩

/-- `d[k] = v` on a dict not containing `k` appends the pair. -/
theorem insertKV_of_not_mem {β : Type} (acc : List (String × β)) (k : String) (v : β)
    (h : k ∉ acc.map Prod.fst) : insertKV acc k v = acc ++ [(k, v)] := by
  induction acc with
  | nil => rfl
  | cons kv rest ih =>
    simp only [List.map_cons, List.mem_cons] at h
    push_neg at h
    simp only [insertKV]
    rw [if_neg (fun he => h.1 he.symm)]
    simp [ih h.2]

/-- Generalized accumulator form of `process_files` under unique keys. -/
theorem process_files_go {β : Type} (procs : FProcs β) :
    ∀ (files : List (String × β)) (acc : List (String × PyValue)),
      (files.map Prod.fst).Nodup →
      (∀ k, k ∈ files.map Prod.fst → k ∉ acc.map Prod.fst) →
      files.foldl (fun a uc => insertKV a uc.1 (processOne procs uc.1 uc.2)) acc =
        acc ++ files.map (fun uc => (uc.1, processOne procs uc.1 uc.2)) := by
  intro files
  induction files with
  | nil => intro acc _ _; simp
  | cons uc rest ih =>
    intro acc hnodup hfresh
    simp only [List.map_cons, List.nodup_cons] at hnodup
    simp only [List.foldl_cons]
    rw [insertKV_of_not_mem acc uc.1 _ (hfresh uc.1 (by simp))]
    rw [ih (acc ++ [(uc.1, processOne procs uc.1 uc.2)]) hnodup.2 ?_]
    · simp
    · intro k hk
      simp only [List.map_append, List.mem_append, List.map_cons, List.map_nil,
        List.mem_singleton]
      push_neg
      refine ⟨hfresh k (by simp [hk]), ?_⟩
      intro he
      exact hnodup.1 (he ▸ hk)

/-- C4 (amended): (1) under unique URLs, the decoder's summary mapping has
exactly one entry per resource of the batch, each computed from that
resource alone — so a failure on one resource never prevents the others
from being decoded; (2) a resource whose decoder raises gets an
`{"error": message}` entry (shown for CSV) while the rest of the batch is
unaffected by (1); (3) a resource whose download raises is skipped by
`solve_question`'s download loop — it contributes no entry and the other
links are still collected; (4) likewise a link without a recognized
extension substring is never downloaded. -/
theorem attachment_batch_isolation :
    (∀ {β : Type} (procs : FProcs β) (files : List (String × β)),
      (files.map Prod.fst).Nodup →
      process_files procs files =
        files.map (fun uc => (uc.1, processOne procs uc.1 uc.2)))
    ∧ (∀ {β : Type} (procs : FProcs β) (url : String) (c : β) (e : String),
      detect_file_type url = .csv → procs.csv c = .error e →
      processOne procs url c = .dict [("error", .str e)])
    ∧ (∀ {β : Type} (dl : String → Except String β)
        (pre post : List Link) (link : Link) (e : String),
      dl link.href = .error e →
      collectFiles dl (pre ++ link :: post) = collectFiles dl (pre ++ post))
    ∧ (∀ {β : Type} (dl : String → Except String β)
        (pre post : List Link) (link : Link),
      wantsDownload link.href = false →
      collectFiles dl (pre ++ link :: post) = collectFiles dl (pre ++ post)) := by
  refine ⟨?_, ?_, ?_, ?_⟩
  · intro β procs files hnodup
    have h := process_files_go procs files [] hnodup (by simp)
    simpa [process_files] using h
  · intro β procs url c e hdet hproc
    simp only [processOne, hdet, hproc]
  · intro β dl pre post link e hdl
    simp only [collectFiles, List.foldl_append, List.foldl_cons]
    congr 1
    by_cases hw : wantsDownload link.href
    · simp [hw, hdl]
    · simp [hw]
  · intro β dl pre post link hw
    simp only [collectFiles, List.foldl_append, List.foldl_cons]
    congr 1
    simp [hw]

/-- Witness for `attachment_batch_isolation`. -/
theorem attachment_batch_isolation_witness :
    process_files procsK [("http://q/a.csv", "col"), ("http://q/x.bin", "b")] =
      [("http://q/a.csv", .dict [("type", .str "csv")]),
       ("http://q/x.bin", .dict [("error", .str "Unknown file type")])]
    ∧ collectFiles dlX ([⟨"http://q/a.csv", "A"⟩] ++ ⟨"http://q/b.csv", "B"⟩ :: []) =
        collectFiles dlX ([⟨"http://q/a.csv", "A"⟩] ++ [])
    ∧ collectFiles dlX ([] ++ ⟨"http://q/c.bin", "C"⟩ :: [⟨"http://q/a.csv", "A"⟩]) =
        collectFiles dlX ([] ++ [⟨"http://q/a.csv", "A"⟩]) := by
  refine ⟨?_, ?_, ?_⟩
  · have h := attachment_batch_isolation.1 procsK
      [("http://q/a.csv", "col"), ("http://q/x.bin", "b")] (by decide)
    rw [h]
    rfl
  · exact attachment_batch_isolation.2.2.1 dlX _ _ _
      "ConnectError: connection refused" rfl
  · exact attachment_batch_isolation.2.2.2 dlX _ _ _ rfl

/-- The head of what `dropWhile` leaves fails the predicate. -/
theorem dropWhile_head_not {α : Type} (p : α → Bool) :
    ∀ (l : List α) (c : α) (r : List α), l.dropWhile p = c :: r → p c = false := by
  intro l
  induction l with
  | nil => intro c r h; simp [List.dropWhile] at h
  | cons a as ih =>
    intro c r h
    by_cases hp : p a
    · rw [List.dropWhile_cons, if_pos hp] at h
      exact ih c r h
    · rw [List.dropWhile_cons, if_neg hp] at h
      cases h
      simpa using hp

/-- Every element kept by `takeWhile` satisfies the predicate. -/
theorem mem_takeWhile_pred {α : Type} (p : α → Bool) :
    ∀ (l : List α) (c : α), c ∈ l.takeWhile p → p c = true := by
  intro l
  induction l with
  | nil => intro c h; simp [List.takeWhile] at h
  | cons a as ih =>
    intro c h
    by_cases hp : p a
    · rw [List.takeWhile_cons, if_pos hp] at h
      rcases List.mem_cons.mp h with rfl | h2
      · exact hp
      · exact ih c h2
    · rw [List.takeWhile_cons, if_neg hp] at h
      simp at h

/-- `takeWhile` over `body ++ rest` returns exactly `body` when every
char of `body` satisfies the predicate and the head of `rest` does not. -/
theorem takeWhile_append_eq {p : Char → Bool} :
    ∀ (body rest : List Char), (∀ c ∈ body, p c = true) →
      (∀ c r2, rest = c :: r2 → p c = false) →
      (body ++ rest).takeWhile p = body := by
  intro body
  induction body with
  | nil =>
    intro rest _ hrest
    cases rest with
    | nil => rfl
    | cons c r2 =>
      simp [List.takeWhile_cons, hrest c r2 rfl]
  | cons b bs ih =>
    intro rest hall hrest
    simp only [List.cons_append, List.takeWhile_cons, hall b (by simp), if_true]
    rw [ih rest (fun c hc => hall c (by simp [hc])) hrest]

/-- `submitScan` finds the leftmost position where the anchored pattern
matches (the `re.search` contract). -/
theorem submitScan_iff :
    ∀ (l u : List Char), submitScan l = some u ↔
      ∃ i, submitMatchAt (l.drop i) = some u
        ∧ ∀ j, j < i → submitMatchAt (l.drop j) = none := by
  intro l
  induction l with
  | nil =>
    intro u
    constructor
    · intro h
      rw [show submitScan ([] : List Char) = none from rfl] at h
      cases h
    · rintro ⟨i, hi, -⟩
      rw [List.drop_nil] at hi
      rw [show submitMatchAt ([] : List Char) = none from rfl] at hi
      cases hi
  | cons c rest ih =>
    intro u
    cases hm : submitMatchAt (c :: rest) with
    | some v =>
      simp only [submitScan, hm]
      constructor
      · intro hv
        refine ⟨0, ?_, fun j hj => absurd hj (Nat.not_lt_zero j)⟩
        rw [List.drop_zero, hm]
        exact hv
      · rintro ⟨i, hi, hmin⟩
        cases i with
        | zero =>
          rw [List.drop_zero, hm] at hi
          exact hi
        | succ n =>
          have h0 := hmin 0 (Nat.succ_pos n)
          rw [List.drop_zero, hm] at h0
          cases h0
    | none =>
      simp only [submitScan, hm]
      rw [ih u]
      constructor
      · rintro ⟨i, hi, hmin⟩
        refine ⟨i + 1, by simpa using hi, ?_⟩
        intro j hj
        cases j with
        | zero => simpa using hm
        | succ m => simpa using hmin m (by omega)
      · rintro ⟨i, hi, hmin⟩
        cases i with
        | zero =>
          rw [List.drop_zero, hm] at hi
          cases hi
        | succ n =>
          refine ⟨n, by simpa using hi, ?_⟩
          intro j hj
          simpa using hmin (j + 1) (by omega)

/-- Soundness of one anchored match: the input decomposes as the literal
`Post your answer to ` followed by the captured URL — a scheme plus a
nonempty MAXIMAL run of non-whitespace, non-`)` characters (the char
after the run, if any, is whitespace or `)`). -/
theorem submitMatchAt_sound (l u : List Char) (h : submitMatchAt l = some u) :
    ∃ sch body rest,
      l = submitLiteral ++ sch ++ body ++ rest
      ∧ u = sch ++ body
      ∧ (sch = "http://".data ∨ sch = "https://".data)
      ∧ body ≠ []
      ∧ (∀ c ∈ body, urlChar c = true)
      ∧ (∀ c r2, rest = c :: r2 → urlChar c = false) := by
  unfold submitMatchAt at h
  split at h
  · cases h
  · rename_i l1 h1
    split at h
    · cases h
    · rename_i sch rest0 h2
      dsimp only at h
      split at h
      · cases h
      · rename_i hb
        have hu : u = sch ++ rest0.takeWhile urlChar := by
          injection h with h'
          exact h'.symm
        have hl : l = submitLiteral ++ l1 := stripPrefixCh_eq_some.mp h1
        have hsch : (sch = "https://".data ∨ sch = "http://".data) ∧ l1 = sch ++ rest0 := by
          unfold schemeSplit at h2
          split at h2
          · rename_i r' h3
            have hs : "https://".data = sch := congrArg Prod.fst (Option.some.inj h2)
            have hr : r' = rest0 := congrArg Prod.snd (Option.some.inj h2)
            refine ⟨Or.inl hs.symm, ?_⟩
            rw [← hs, ← hr]
            exact stripPrefixCh_eq_some.mp h3
          · split at h2
            · rename_i r' h4
              have hs : "http://".data = sch := congrArg Prod.fst (Option.some.inj h2)
              have hr : r' = rest0 := congrArg Prod.snd (Option.some.inj h2)
              refine ⟨Or.inr hs.symm, ?_⟩
              rw [← hs, ← hr]
              exact stripPrefixCh_eq_some.mp h4
            · cases h2
        refine ⟨sch, rest0.takeWhile urlChar, rest0.dropWhile urlChar, ?_, hu, ?_, ?_, ?_, ?_⟩
        · rw [hl, hsch.2]
          simp [List.takeWhile_append_dropWhile, List.append_assoc]
        · exact hsch.1.symm.imp (fun h => h) (fun h => h)
        · intro he
          rw [he] at hb
          simp at hb
        · intro c hc
          exact mem_takeWhile_pred urlChar rest0 c hc
        · intro c r2 hcr
          exact dropWhile_head_not urlChar rest0 c r2 hcr

/-- Completeness of one anchored match: a text that IS the literal
followed by a scheme and a maximal nonempty URL-char run matches, with
exactly that capture. -/
theorem submitMatchAt_complete (sch body rest : List Char)
    (hsch : sch = "http://".data ∨ sch = "https://".data)
    (hbody : body ≠ []) (hall : ∀ c ∈ body, urlChar c = true)
    (hrest : ∀ c r2, rest = c :: r2 → urlChar c = false) :
    submitMatchAt (submitLiteral ++ (sch ++ (body ++ rest))) = some (sch ++ body) := by
  have hstrip : stripPrefixCh (submitLiteral ++ (sch ++ (body ++ rest))) submitLiteral =
      some (sch ++ (body ++ rest)) := stripPrefixCh_eq_some.mpr rfl
  have hss : schemeSplit (sch ++ (body ++ rest)) = some (sch, body ++ rest) := by
    rcases hsch with h | h
    · subst h
      have hnone : stripPrefixCh ("http://".data ++ (body ++ rest)) "https://".data = none := by
        show stripPrefixCh ('h' :: 't' :: 't' :: 'p' :: ':' :: '/' :: '/' :: (body ++ rest))
            ('h' :: 't' :: 't' :: 'p' :: 's' :: ':' :: '/' :: '/' :: []) = none
        simp only [stripPrefixCh, if_true]
        rw [if_neg (by decide)]
      have hsome : stripPrefixCh ("http://".data ++ (body ++ rest)) "http://".data =
          some (body ++ rest) := stripPrefixCh_eq_some.mpr rfl
      simp only [schemeSplit, hnone, hsome]
    · subst h
      have hsome : stripPrefixCh ("https://".data ++ (body ++ rest)) "https://".data =
          some (body ++ rest) := stripPrefixCh_eq_some.mpr rfl
      simp only [schemeSplit, hsome]
  simp only [submitMatchAt, hstrip, hss]
  rw [takeWhile_append_eq body rest hall hrest]
  cases body with
  | nil => exact absurd rfl hbody
  | cons b bs => simp

/-- C3 (amended): the Submit-URL Extractor returns the capture of the
first (leftmost) CASE-SENSITIVE occurrence of `Post your answer to `
followed by `http://` or `https://` and a nonempty maximal run of
non-whitespace, non-`)` characters; the run keeps any other trailing
punctuation.  It returns `none` exactly when no position matches (in
particular for texts without the phrase). -/
theorem extract_submit_url_characterization :
    (∀ t : String, extract_submit_url t = (submitScan t.data).map String.mk)
    ∧ (∀ l u : List Char, submitScan l = some u ↔
        ∃ i, submitMatchAt (l.drop i) = some u
          ∧ ∀ j, j < i → submitMatchAt (l.drop j) = none)
    ∧ (∀ l u : List Char, submitMatchAt l = some u →
        ∃ sch body rest,
          l = submitLiteral ++ sch ++ body ++ rest
          ∧ u = sch ++ body
          ∧ (sch = "http://".data ∨ sch = "https://".data)
          ∧ body ≠ []
          ∧ (∀ c ∈ body, urlChar c = true)
          ∧ (∀ c r2, rest = c :: r2 → urlChar c = false))
    ∧ (∀ sch body rest : List Char,
        sch = "http://".data ∨ sch = "https://".data → body ≠ [] →
        (∀ c ∈ body, urlChar c = true) →
        (∀ c r2, rest = c :: r2 → urlChar c = false) →
        submitMatchAt (submitLiteral ++ (sch ++ (body ++ rest))) = some (sch ++ body))
    ∧ extract_submit_url "See (Post your answer to https://x.y/z) now" = some "https://x.y/z"
    ∧ extract_submit_url
        "Post your answer to https://a.b/c or Post your answer to https://d.e/f" =
        some "https://a.b/c"
    ∧ extract_submit_url "Please post it at the usual place" = none
    ∧ extract_submit_url "Post your answer to ftp://x.y/z" = none :=
  ⟨fun _ => rfl, submitScan_iff, submitMatchAt_sound,
   fun sch body rest h1 h2 h3 h4 => submitMatchAt_complete sch body rest h1 h2 h3 h4,
   rfl, rfl, rfl, rfl⟩

/-- Witness for `extract_submit_url_characterization`: the
first-occurrence characterization instantiated at a concrete text. -/
theorem extract_submit_url_characterization_witness :
    ∃ i, submitMatchAt (("x Post your answer to http://a.b".data).drop i) =
        some "http://a.b".data
      ∧ ∀ j, j < i → submitMatchAt (("x Post your answer to http://a.b".data).drop j) = none :=
  (extract_submit_url_characterization.2.1 "x Post your answer to http://a.b".data
    "http://a.b".data).mp rfl

/-- C3 (counterexample): the claim's case-insensitivity fails — a
lowercase `post your answer to` is not matched — and trailing `.`
punctuation is NOT excluded from the returned URL. -/
theorem extract_submit_url_counterexample :
    extract_submit_url "post your answer to https://x.y/z" = none
    ∧ extract_submit_url "Post your answer to https://x.y/z." = some "https://x.y/z." :=
  ⟨rfl, rfl⟩

/-! Additional corner-case evaluations of the embedding, mirroring the
Python semantics: a case-insensitive marker hit; a marker at end of text
(regex fails, the fallback returns the line holding the marker itself);
a marker followed only by whitespace (backtracking captures one
whitespace char, stripped to the empty string); PEP 515 underscores
accepted by `int()` but not by JSON; whitespace ending a URL capture. -/

example : extract_final_answer "final_answer: 5" = .int 5 := rfl
example : extract_final_answer "FINAL_ANSWER:" = .str "FINAL_ANSWER:" := rfl
example : extract_final_answer "FINAL_ANSWER:   " = .str "" := rfl
example : extract_final_answer "FINAL_ANSWER: 1_000" = .int 1000 := rfl
example : pyJsonLoads "1_000" = none := rfl
example : extract_submit_url "Post your answer to https://x.y/z path" =
    some "https://x.y/z" := rfl
